import Mathlib

/-!
Shallow embedding of the Metrics Acquisition and Alerting Core of the
mac_system_monitor repository (src/utils.py, src/alerts.py, src/metrics.py,
src/collectors/base.py, src/collectors/psutil_collector.py,
src/collectors/powermetrics_collector.py), together with theorems settling
the frozen claims about it.

Modelling conventions:
- Python floats are modelled as rationals; Python ints as integers or
  naturals; time.time() values are passed explicitly as rational arguments.
- Python dicts are association lists in insertion order; updating an
  existing key keeps its position, inserting a new key appends at the end,
  exactly like CPython dict semantics.
- Fallible operations take their outcome from an explicit environment
  record, so that each try/except branch of the source is a case split here.
-/

namespace MacMon

/-! ## Python dict primitives (insertion-ordered association lists) -/

/-- Lookup of a key in a Python dict, first binding wins. -/
def dictGet {α : Type} (d : List (String × α)) (k : String) : Option α :=
  match d with
  | [] => none
  | (k1, v) :: rest => if k1 = k then some v else dictGet rest k

/-- Python dict assignment d[k] = v: update in place if the key exists,
append at the end otherwise. -/
def dictSet {α : Type} (d : List (String × α)) (k : String) (v : α) :
    List (String × α) :=
  match d with
  | [] => [(k, v)]
  | (k1, v1) :: rest =>
      if k1 = k then (k, v) :: rest else (k1, v1) :: dictSet rest k v

/-- Python membership test k in d. -/
def dictMem {α : Type} (d : List (String × α)) (k : String) : Bool :=
  (dictGet d k).isSome

theorem dictGet_dictSet_self {α : Type} (d : List (String × α)) (k : String)
    (v : α) : dictGet (dictSet d k v) k = some v := by
  induction d with
  | nil => simp [dictSet, dictGet]
  | cons hd tl ih =>
      obtain ⟨k1, v1⟩ := hd
      by_cases h : k1 = k
      · simp [dictSet, dictGet, h]
      · simp [dictSet, dictGet, h, ih]

theorem dictGet_dictSet_ne {α : Type} (d : List (String × α)) (k k1 : String)
    (v : α) (h : k ≠ k1) : dictGet (dictSet d k v) k1 = dictGet d k1 := by
  induction d with
  | nil => simp [dictSet, dictGet, h]
  | cons hd tl ih =>
      obtain ⟨k2, v2⟩ := hd
      by_cases h2 : k2 = k
      · subst h2
        simp [dictSet, dictGet, h]
      · simp [dictSet, dictGet, h2, ih]

/-! ## utils.py: Python string helpers and thermal pressure ordinal -/

/-- Characters stripped by Python str.strip() with no argument. -/
def isPySpace (c : Char) : Bool :=
  c = ' ' || c = '\t' || c = '\n' || c = '\r' || c = '\x0b' || c = '\x0c'

/-- Python str.strip(): drop leading and trailing whitespace. -/
def pyStrip (s : String) : String :=
  ⟨((s.data.dropWhile isPySpace).reverse.dropWhile isPySpace).reverse⟩

/-- Python str.lower() restricted to ASCII letters, which is all the
vocabulary in this repository uses. -/
def pyLower (s : String) : String :=
  ⟨s.data.map fun c =>
    if 'A' ≤ c ∧ c ≤ 'Z' then Char.ofNat (c.toNat + 32) else c⟩

/-- utils.THERMAL_PRESSURE_ORDER. -/
def THERMAL_PRESSURE_ORDER : List String :=
  ["Nominal", "Moderate", "Serious", "Heavy", "Critical"]

/-- The enumerate loop shared by utils.thermal_pressure_level and
alerts._get_metric_value: return the index of the first vocabulary name
whose lowercase form equals the target, scanning with a running index. -/
def levelScan (target : String) : List String → ℕ → Option ℕ
  | [], _ => none
  | name :: rest, i =>
      if pyLower name = target then some i else levelScan target rest (i + 1)

/-- utils.thermal_pressure_level: numeric level for ordering, -1 if unknown.
A Python None or empty string argument is falsy and returns -1 immediately. -/
def thermal_pressure_level (level : Option String) : Int :=
  match level with
  | none => -1
  | some s =>
      if s = "" then -1
      else
        match levelScan (pyLower (pyStrip s)) THERMAL_PRESSURE_ORDER 0 with
        | some i => (i : Int)
        | none => -1

/-! ## collectors/base.py: CollectorResult and merge_into -/

/-- A loosely typed Python value as stored in CollectorResult.data. -/
inductive Val where
  | num : ℚ → Val
  | str : String → Val
  | bool : Bool → Val
  | pynone : Val
  | list : List Val → Val
  | dict : List (String × Val) → Val

/-- collectors/base.CollectorResult. -/
structure CollectorResult where
  success : Bool := true
  error : Option String := none
  data : List (String × Val) := []

/-- Body of the inner loop of CollectorResult.merge_into for one
top-level key: when both sides hold dicts, each incoming entry is
assigned into the existing dict one level down; otherwise the incoming
value is assigned wholesale. -/
def mergeKey (target : List (String × Val)) (k : String) (v : Val) :
    List (String × Val) :=
  match dictGet target k, v with
  | some (Val.dict td), Val.dict vd =>
      dictSet target k
        (Val.dict (vd.foldl (fun acc kv => dictSet acc kv.1 kv.2) td))
  | _, _ => dictSet target k v

/-- CollectorResult.merge_into: fold the data entries into the target. -/
def merge_into (r : CollectorResult) (target : List (String × Val)) :
    List (String × Val) :=
  r.data.foldl (fun acc kv => mergeKey acc kv.1 kv.2) target

mutual

/-- Modelled from the spec words of section 4.4: a fully recursive
deep merge in which mappings merge key-by-key at every depth and only
non-mapping values overwrite, i.e. the incoming value overwrites at the
leaf. Used solely to compare the spec wording with merge_into. -/
def specMergeVal : Val → Val → Val
  | Val.dict dOld, Val.dict dNew => Val.dict (specMergeEntries dOld dNew)
  | _, vNew => vNew

def specMergeEntries : List (String × Val) → List (String × Val) →
    List (String × Val)
  | dOld, [] => dOld
  | dOld, (k, v) :: rest =>
      specMergeEntries
        (dictSet dOld k
          (match dictGet dOld k with
           | some old => specMergeVal old v
           | none => v))
        rest

end

/-! ## models.py: AlertRule and AlertEvent -/

inductive AlertSeverity where
  | info
  | warning
  | critical
deriving DecidableEq, Repr

/-- models.AlertRule. -/
structure AlertRule where
  id : String
  name : String
  metric : String
  operator : String
  value : ℚ
  severity : AlertSeverity := AlertSeverity.warning
  enabled : Bool := true
  cooldown_sec : ℚ := 60
deriving DecidableEq, Repr

/-- models.AlertEvent. -/
structure AlertEvent where
  rule_id : String
  rule_name : String
  metric : String
  value : ℚ
  threshold : ℚ
  severity : AlertSeverity
  message : String
  timestamp : ℚ
deriving DecidableEq, Repr

/-! ## alerts.py: metric resolution, rule evaluation, the engine -/

/-- A value stored in the metrics dict handed to AlertEngine.evaluate.
num covers Python ints, floats and bools (whose float() is the number);
str covers strings; pynone covers None; other covers every value whose
float() raises, such as dicts and lists. No metrics dict this program
builds contains a string that float() accepts, so float() of a str is
modelled as failing. -/
inductive PyVal where
  | num : ℚ → PyVal
  | str : String → PyVal
  | pynone : PyVal
  | other : PyVal
deriving DecidableEq, Repr

/-- alerts._get_metric_value: resolve a metric value from the metrics
dict; the key thermal_pressure is special-cased through the ordinal
vocabulary, every other value goes through float() or yields None. -/
def get_metric_value (metrics : List (String × PyVal)) (key : String) :
    Option ℚ :=
  if key = "thermal_pressure" then
    match dictGet metrics "thermal_pressure" with
    | some (PyVal.str level) =>
        match levelScan (pyLower (pyStrip level)) THERMAL_PRESSURE_ORDER 0 with
        | some i => some (i : ℚ)
        | none => none
    | _ => none
  else
    match dictGet metrics key with
    | some (PyVal.num q) => some q
    | _ => none

/-- alerts._eval_rule. -/
def eval_rule (rule : AlertRule) (value : ℚ) : Bool :=
  if rule.operator = "gt" then value > rule.value
  else if rule.operator = "gte" then value ≥ rule.value
  else if rule.operator = "lt" then value < rule.value
  else if rule.operator = "lte" then value ≤ rule.value
  else if rule.operator = "eq" then value = rule.value
  else false

/-- alerts.AlertEngine state: rules, event history, per-rule last-fire
times and the history bound (500 in __init__). -/
structure AlertEngine where
  rules : List AlertRule := []
  events : List AlertEvent := []
  lastFire : List (String × ℚ) := []
  maxEvents : ℕ := 500

/-- AlertEngine.add_rule: append only when no rule has the same id. -/
def AlertEngine.add_rule (eng : AlertEngine) (rule : AlertRule) :
    AlertEngine :=
  if eng.rules.any (fun r => r.id = rule.id) then eng
  else { eng with rules := eng.rules ++ [rule] }

/-- AlertEngine.remove_rule: keep the rules whose id differs, and return
whether the rule list shrank. -/
def AlertEngine.remove_rule (eng : AlertEngine) (rule_id : String) :
    AlertEngine × Bool :=
  let newRules := eng.rules.filter (fun r => r.id ≠ rule_id)
  ({ eng with rules := newRules }, newRules.length < eng.rules.length)

/-- The while-loop at the end of each event append in evaluate:
pop the oldest event while the history exceeds the bound. -/
def trimEvents (maxE : ℕ) : List AlertEvent → List AlertEvent
  | [] => []
  | e :: rest =>
      if maxE < (e :: rest).length then trimEvents maxE rest else e :: rest

/-- The message f-string of evaluate; rational toString stands in for
Python float formatting, which no claim depends on. -/
def mkMessage (metric : String) (val : ℚ) (op : String) (threshold : ℚ) :
    String :=
  metric ++ "=" ++ toString val ++ " (threshold " ++ op ++ " " ++
    toString threshold ++ ")"

/-- Loop state of AlertEngine.evaluate: the mutated events list and
last-fire dict plus the accumulated new_events of this round. -/
structure EvalState where
  events : List AlertEvent
  lastFire : List (String × ℚ)
  newEvents : List AlertEvent

/-- The AlertEvent constructor call inside evaluate. -/
def mkEvent (rule : AlertRule) (val now : ℚ) : AlertEvent :=
  { rule_id := rule.id
    rule_name := rule.name
    metric := rule.metric
    value := val
    threshold := rule.value
    severity := rule.severity
    message := mkMessage rule.metric val rule.operator rule.value
    timestamp := now }

/-- One iteration of the rule loop of AlertEngine.evaluate. -/
def evalStep (metrics : List (String × PyVal)) (now : ℚ) (maxE : ℕ)
    (st : EvalState) (rule : AlertRule) : EvalState :=
  if !rule.enabled then st
  else
    match get_metric_value metrics rule.metric with
    | none => st
    | some val =>
        if !eval_rule rule val then st
        else
          let last := (dictGet st.lastFire rule.id).getD 0
          if now - last < rule.cooldown_sec then st
          else
            let event : AlertEvent := mkEvent rule val now
            { events := trimEvents maxE (st.events ++ [event])
              lastFire := dictSet st.lastFire rule.id now
              newEvents := st.newEvents ++ [event] }

/-- The for-loop of AlertEngine.evaluate over the rule list. -/
def evalRules (metrics : List (String × PyVal)) (now : ℚ) (maxE : ℕ) :
    List AlertRule → EvalState → EvalState
  | [], st => st
  | r :: rest, st =>
      evalRules metrics now maxE rest (evalStep metrics now maxE st r)

/-- AlertEngine.evaluate with time.time() passed explicitly: returns the
updated engine together with the new events of this round. -/
def AlertEngine.evaluate (eng : AlertEngine)
    (metrics : List (String × PyVal)) (now : ℚ) :
    AlertEngine × List AlertEvent :=
  let st := evalRules metrics now eng.maxEvents eng.rules
    ⟨eng.events, eng.lastFire, []⟩
  ({ eng with events := st.events, lastFire := st.lastFire }, st.newEvents)

/-- AlertEngine.get_events: list(reversed(self.events[-limit:])).
A Python slice [-limit:] with limit = 0 is [0:], the whole list. -/
def AlertEngine.get_events (eng : AlertEngine) (limit : ℕ) :
    List AlertEvent :=
  (if limit = 0 then eng.events
   else eng.events.drop (eng.events.length - limit)).reverse

/-- AlertEngine.clear_events. -/
def AlertEngine.clear_events (eng : AlertEngine) : AlertEngine :=
  { eng with events := [], lastFire := [] }

/-! ## The powermetrics sampling cache

metrics._run_powermetrics and the identical caching wrapper in
collectors/powermetrics_collector.py. The subprocess output that
_run_powermetrics_impl would produce is passed in as implOut;
the Bool in the result records whether that impl branch ran, that is
whether the tool was invoked. -/

def runPowermetricsCached (cache : Option (ℚ × String)) (now ttl : ℚ)
    (implOut : String) : String × Option (ℚ × String) × Bool :=
  match cache with
  | some (t, s) =>
      if now - t < ttl then (s, some (t, s), false)
      else (implOut,
            if implOut ≠ "" then some (now, implOut) else some (t, s), true)
  | none =>
      (implOut, if implOut ≠ "" then some (now, implOut) else none, true)

/-! ## metrics.py: MacMetrics and collect -/

/-- metrics.MacMetrics with the dataclass defaults. The extended
collector fields (load_average onwards) are only populated by
collect_full, which is outside the modelled paths, and keep their
empty defaults here. -/
structure MacMetrics where
  cpu_percent : ℚ := 0
  cpu_count : ℕ := 0
  memory_total_gb : ℚ := 0
  memory_used_gb : ℚ := 0
  memory_percent : ℚ := 0
  disk_total_gb : ℚ := 0
  disk_used_gb : ℚ := 0
  disk_percent : ℚ := 0
  temperatures : List (String × ℚ) := []
  fan_speeds : List (String × ℤ) := []
  battery_percent : Option ℚ := none
  battery_plugged : Option Bool := none
  power_estimates : List (String × ℚ) := []
  thermal_pressure : Option String := none
  smc_available : Bool := false
  error : Option String := none
  swap_total_gb : ℚ := 0
  swap_used_gb : ℚ := 0
  swap_percent : ℚ := 0
  disk_read_bytes : ℤ := 0
  disk_write_bytes : ℤ := 0
  uptime_sec : ℚ := 0
  timestamp : ℚ := 0
  load_average : List (String × ℚ) := []
  network : List (String × Val) := []
  network_per_interface : List Val := []
  processes : List Val := []
  disk_mounts : List Val := []
  system_info : List (String × Val) := []
  cpu_per_cpu : List ℚ := []

/-- The two no-overwrite merge loops near the end of metrics.collect:
an entry of extra is copied only when its key is absent. -/
def mergeNoOverwrite {α : Type} (primary extra : List (String × α)) :
    List (String × α) :=
  extra.foldl
    (fun acc kv => if dictMem acc kv.1 then acc else dictSet acc kv.1 kv.2)
    primary

/-- Bytes per gigabyte. -/
def GB : ℚ := 1024 ^ 3

/-- Environment of one metrics.collect call: the platform string, the
availability of psutil, every value the psutil library reports (with one
Bool per try/except block recording whether that call succeeds), the
parse result of the powermetrics output, and the maps returned by the
external temperature and fan tools. -/
structure CollectEnv where
  platformSystem : String := ""
  psutilAvailable : Bool := true
  now : ℚ := 0
  cpuPercent : ℚ := 0
  cpuCount : Option ℕ := none
  vmemTotal : ℚ := 0
  vmemUsed : ℚ := 0
  vmemPercent : ℚ := 0
  swapOk : Bool := true
  swapTotal : ℚ := 0
  swapUsed : ℚ := 0
  swapPercent : ℚ := 0
  diskOk : Bool := true
  diskTotal : ℚ := 0
  diskUsed : ℚ := 0
  diskPercent : ℚ := 0
  diskIoOk : Bool := true
  diskIoCounters : Option (ℤ × ℤ) := none
  bootOk : Bool := true
  bootTime : ℚ := 0
  batteryOk : Bool := true
  battery : Option (ℚ × Bool) := none
  pmTemps : List (String × ℚ) := []
  pmFans : List (String × ℤ) := []
  pmPower : List (String × ℚ) := []
  pmPressure : Option String := none
  pmHasHw : Bool := true
  extTemps : List (String × ℚ) := []
  extFans : List (String × ℤ) := []

/-- metrics.collect, with each effect drawn from the environment. The
powermetrics text is represented by its _parse_powermetrics result
(env.pmTemps, env.pmFans, env.pmPower, env.pmPressure, env.pmHasHw)
and the external tools by their returned maps. -/
def collect (env : CollectEnv) : MacMetrics :=
  let m : MacMetrics := { timestamp := env.now }
  if env.platformSystem ≠ "Darwin" then
    { m with error := some "This tool is for macOS only." }
  else if !env.psutilAvailable then
    { m with error := some "Install psutil: pip install psutil" }
  else
    let m := { m with
      cpu_percent := env.cpuPercent
      cpu_count := env.cpuCount.getD 0
      memory_total_gb := env.vmemTotal / GB
      memory_used_gb := env.vmemUsed / GB
      memory_percent := env.vmemPercent }
    let m := if env.swapOk then
        { m with
          swap_total_gb := env.swapTotal / GB
          swap_used_gb := env.swapUsed / GB
          swap_percent := env.swapPercent }
      else m
    let m := if env.diskOk then
        { m with
          disk_total_gb := env.diskTotal / GB
          disk_used_gb := env.diskUsed / GB
          disk_percent := env.diskPercent }
      else m
    let m := if env.diskIoOk then
        match env.diskIoCounters with
        | some (r, w) => { m with disk_read_bytes := r, disk_write_bytes := w }
        | none => m
      else m
    let m := if env.bootOk then
        { m with uptime_sec := env.now - env.bootTime }
      else m
    let m := if env.batteryOk then
        match env.battery with
        | some (p, plugged) =>
            { m with battery_percent := some p, battery_plugged := some plugged }
        | none => m
      else m
    let m := { m with
      temperatures := env.pmTemps
      fan_speeds := env.pmFans
      power_estimates := env.pmPower
      thermal_pressure := env.pmPressure
      smc_available := env.pmHasHw }
    let m := { m with
      temperatures := mergeNoOverwrite env.pmTemps env.extTemps
      fan_speeds := mergeNoOverwrite env.pmFans env.extFans }
    if env.extTemps ≠ [] ∨ env.extFans ≠ [] then
      { m with smc_available := true }
    else m

/-! ## collectors/psutil_collector.py: the host-counters collector -/

/-- One entry of psutil.disk_partitions together with the outcome of
psutil.disk_usage on its mountpoint. -/
structure MountEntry where
  mountpoint : String := ""
  device : String := ""
  fstype : String := ""
  usageOk : Bool := true
  total : ℚ := 0
  used : ℚ := 0
  free : ℚ := 0
  percent : ℚ := 0

/-- Environment of one PsutilCollector.collect call. -/
structure PsutilEnv where
  psutilAvailable : Bool := true
  platformSystem : String := ""
  now : ℚ := 0
  cpuPercent : ℚ := 0
  cpuCount : Option ℕ := none
  perCpuOk : Bool := true
  perCpu : List ℚ := []
  loadOk : Bool := true
  load1 : ℚ := 0
  load5 : ℚ := 0
  load15 : ℚ := 0
  vmemTotal : ℚ := 0
  vmemUsed : ℚ := 0
  vmemPercent : ℚ := 0
  vmemAvailable : ℚ := 0
  swapOk : Bool := true
  swapTotal : ℚ := 0
  swapUsed : ℚ := 0
  swapPercent : ℚ := 0
  diskOk : Bool := true
  diskTotal : ℚ := 0
  diskUsed : ℚ := 0
  diskPercent : ℚ := 0
  partitionsOk : Bool := true
  partitions : List MountEntry := []
  diskIoOk : Bool := true
  diskIoCounters : Option (ℤ × ℤ) := none
  bootOk : Bool := true
  bootTime : ℚ := 0
  batteryOk : Bool := true
  battery : Option (ℚ × Bool × Option ℚ) := none
  systemInfoOk : Bool := true
  hostname : String := ""
  platformRelease : String := ""
  platformVersion : String := ""
  architecture : String := ""
  processor : String := ""
  pythonVersion : String := ""
  physicalCores : Option ℕ := none
  logicalCores : Option ℕ := none

/-- models.LoadAverage.to_dict. -/
def loadAverageDict (l1 l5 l15 : ℚ) : List (String × ℚ) :=
  [("load_1", l1), ("load_5", l5), ("load_15", l15)]

/-- models.DiskMount.to_dict. -/
def diskMountDict (p : MountEntry) : Val :=
  Val.dict
    [("mountpoint", Val.str p.mountpoint),
     ("total_gb", Val.num (p.total / GB)),
     ("used_gb", Val.num (p.used / GB)),
     ("free_gb", Val.num (p.free / GB)),
     ("percent", Val.num p.percent),
     ("device", Val.str p.device),
     ("fstype", Val.str p.fstype)]

/-- The mount loop of PsutilCollector.collect: the first
disk_mounts_max partitions, skipping every partition whose disk_usage
call fails. -/
def mountDicts (parts : List MountEntry) (maxMounts : ℕ) : List Val :=
  ((parts.take maxMounts).filter (fun p => p.usageOk)).map diskMountDict

/-- models.SystemInfo.to_dict as built by PsutilCollector.collect. -/
def systemInfoDict (env : PsutilEnv) : List (String × Val) :=
  [("hostname", Val.str env.hostname),
   ("platform", Val.str env.platformSystem),
   ("platform_release", Val.str env.platformRelease),
   ("platform_version", Val.str env.platformVersion),
   ("architecture", Val.str env.architecture),
   ("processor", Val.str env.processor),
   ("physical_cores", Val.num (env.physicalCores.getD 0 : ℕ)),
   ("logical_cores", Val.num (env.logicalCores.getD 0 : ℕ)),
   ("total_memory_gb", Val.num (env.vmemTotal / GB)),
   ("python_version", Val.str env.pythonVersion)]

/-- PsutilCollector.collect with constructor arguments disk_mounts_max
and include_system_info, effects drawn from the environment; data keys
appear in source assignment order. -/
def psutilCollect (disk_mounts_max : ℕ) (include_system_info : Bool)
    (env : PsutilEnv) : CollectorResult :=
  if !env.psutilAvailable then
    { success := false, error := some "psutil not installed", data := [] }
  else if env.platformSystem ≠ "Darwin" then
    { success := false, error := some "Not macOS", data := [] }
  else
    let battery3 : Val × Val × Val :=
      if env.batteryOk then
        match env.battery with
        | some (p, plugged, secs) =>
            (Val.num p, Val.bool plugged,
             match secs with
             | some q => Val.num q
             | none => Val.pynone)
        | none => (Val.pynone, Val.pynone, Val.pynone)
      else (Val.pynone, Val.pynone, Val.pynone)
    let ioPair : ℤ × ℤ :=
      if env.diskIoOk then
        match env.diskIoCounters with
        | some (r, w) => (r, w)
        | none => (0, 0)
      else (0, 0)
    let data : List (String × Val) :=
      [("timestamp", Val.num env.now),
       ("cpu_percent", Val.num env.cpuPercent),
       ("cpu_count", Val.num (env.cpuCount.getD 0 : ℕ)),
       ("cpu_per_cpu",
         Val.list (if env.perCpuOk then env.perCpu.map Val.num else [])),
       ("load_average",
         Val.dict ((if env.loadOk then
             loadAverageDict env.load1 env.load5 env.load15
           else loadAverageDict 0 0 0).map
             (fun kv => (kv.1, Val.num kv.2)))),
       ("memory_total_gb", Val.num (env.vmemTotal / GB)),
       ("memory_used_gb", Val.num (env.vmemUsed / GB)),
       ("memory_percent", Val.num env.vmemPercent),
       ("memory_available_gb", Val.num (env.vmemAvailable / GB)),
       ("swap_total_gb", Val.num (if env.swapOk then env.swapTotal / GB else 0)),
       ("swap_used_gb", Val.num (if env.swapOk then env.swapUsed / GB else 0)),
       ("swap_percent", Val.num (if env.swapOk then env.swapPercent else 0)),
       ("disk_total_gb", Val.num (if env.diskOk then env.diskTotal / GB else 0)),
       ("disk_used_gb", Val.num (if env.diskOk then env.diskUsed / GB else 0)),
       ("disk_percent", Val.num (if env.diskOk then env.diskPercent else 0)),
       ("disk_mounts",
         Val.list (if env.partitionsOk then
             mountDicts env.partitions disk_mounts_max
           else [])),
       ("disk_read_bytes", Val.num (ioPair.1 : ℚ)),
       ("disk_write_bytes", Val.num (ioPair.2 : ℚ)),
       ("uptime_sec", Val.num (if env.bootOk then env.now - env.bootTime else 0)),
       ("battery_percent", battery3.1),
       ("battery_plugged", battery3.2.1),
       ("battery_secs_left", battery3.2.2)]
    let data := if include_system_info then
        data ++ [("system_info",
          Val.dict (if env.systemInfoOk then systemInfoDict env else []))]
      else data
    { success := true, error := none, data := data }

/-! ## Theorems -/

theorem pyLower_nominal : pyLower "Nominal" = "nominal" := by decide

theorem pyLower_moderate : pyLower "Moderate" = "moderate" := by decide

theorem pyLower_serious : pyLower "Serious" = "serious" := by decide

theorem pyLower_heavy : pyLower "Heavy" = "heavy" := by decide

theorem pyLower_critical : pyLower "Critical" = "critical" := by decide

/-- Claim C7: thermal_pressure_level maps the five-level vocabulary to
its ordinal case-insensitively after whitespace stripping, sends None
to -1, and sends every string outside the vocabulary to -1, so it is
total. -/
theorem thermal_pressure_level_spec :
    thermal_pressure_level (some "Nominal") = 0 ∧
    thermal_pressure_level (some "Critical") = 4 ∧
    thermal_pressure_level none = -1 ∧
    (∀ s : String,
      pyLower (pyStrip s) ∉ THERMAL_PRESSURE_ORDER.map pyLower →
      thermal_pressure_level (some s) = -1) ∧
    (∀ s : String,
      (pyLower (pyStrip s) = "nominal" → thermal_pressure_level (some s) = 0) ∧
      (pyLower (pyStrip s) = "moderate" → thermal_pressure_level (some s) = 1) ∧
      (pyLower (pyStrip s) = "serious" → thermal_pressure_level (some s) = 2) ∧
      (pyLower (pyStrip s) = "heavy" → thermal_pressure_level (some s) = 3) ∧
      (pyLower (pyStrip s) = "critical" → thermal_pressure_level (some s) = 4)) := by
  have key : ∀ s : String, s ≠ "" →
      thermal_pressure_level (some s) =
        (match levelScan (pyLower (pyStrip s)) THERMAL_PRESSURE_ORDER 0 with
         | some i => (i : Int)
         | none => -1) := by
    intro s hs
    simp [thermal_pressure_level, hs]
  refine ⟨by decide, by decide, by decide, ?_, ?_⟩
  · intro s h
    simp only [THERMAL_PRESSURE_ORDER, List.map, pyLower_nominal, pyLower_moderate,
      pyLower_serious, pyLower_heavy, pyLower_critical, List.mem_cons,
      List.not_mem_nil, or_false, not_or] at h
    obtain ⟨h1, h2, h3, h4, h5⟩ := h
    by_cases hs : s = ""
    · simp [thermal_pressure_level, hs]
    · rw [key s hs]
      simp [levelScan, THERMAL_PRESSURE_ORDER, pyLower_nominal, pyLower_moderate,
        pyLower_serious, pyLower_heavy, pyLower_critical,
        Ne.symm h1, Ne.symm h2, Ne.symm h3, Ne.symm h4, Ne.symm h5]
  · intro s
    refine ⟨?_, ?_, ?_, ?_, ?_⟩ <;> intro hlow <;>
      (have hs : s ≠ "" := by
        intro hseq
        subst hseq
        exact absurd hlow (by decide)) <;>
      rw [key s hs] <;>
      simp [levelScan, THERMAL_PRESSURE_ORDER, pyLower_nominal, pyLower_moderate,
        pyLower_serious, pyLower_heavy, pyLower_critical, hlow]

/-- Witness for C7 at the concrete out-of-vocabulary input "bogus" and
the concrete case-insensitive input " heAVy ". -/
theorem thermal_pressure_level_spec_witness :
    thermal_pressure_level (some "bogus") = -1 ∧
    thermal_pressure_level (some " heAVy ") = 3 :=
  ⟨thermal_pressure_level_spec.2.2.2.1 "bogus" (by decide),
   (thermal_pressure_level_spec.2.2.2.2 " heAVy ").2.2.2.1 (by decide)⟩



theorem length_filter_lt_iff {α : Type} (p : α → Bool) (l : List α) :
    (l.filter p).length < l.length ↔ ∃ x ∈ l, ¬ p x := by
  induction l with
  | nil => simp
  | cons a t ih =>
      by_cases h : p a
      · simp [List.filter_cons, h, Nat.succ_lt_succ_iff, ih]
      · simp only [List.filter_cons, h, if_false, Bool.false_eq_true, List.length_cons]
        constructor
        · intro _
          exact ⟨a, List.mem_cons_self a t, by simp [h]⟩
        · intro _
          exact Nat.lt_succ_of_le (List.length_filter_le p t)

/-- Claim C9: add_rule with a rule whose id equals an existing rule's
id leaves the rule set unchanged, and remove_rule returns true exactly
when a rule with the given id was present, returning false and leaving
the rules unchanged on a nonexistent id. -/
theorem add_remove_rule_spec (eng : AlertEngine) (rule : AlertRule) (rid : String) :
    ((∃ r ∈ eng.rules, r.id = rule.id) → eng.add_rule rule = eng) ∧
    ((eng.remove_rule rid).2 = true ↔ ∃ r ∈ eng.rules, r.id = rid) ∧
    ((¬ ∃ r ∈ eng.rules, r.id = rid) →
      (eng.remove_rule rid).1 = eng ∧ (eng.remove_rule rid).2 = false) := by
  refine ⟨?_, ?_, ?_⟩
  · intro h
    obtain ⟨r, hr, hid⟩ := h
    have : eng.rules.any (fun r => r.id = rule.id) = true :=
      List.any_eq_true.2 ⟨r, hr, by simp [hid]⟩
    simp [AlertEngine.add_rule, this]
  · simp only [AlertEngine.remove_rule, decide_eq_true_eq]
    rw [length_filter_lt_iff]
    constructor
    · rintro ⟨r, hr, hnp⟩
      exact ⟨r, hr, by simpa using hnp⟩
    · rintro ⟨r, hr, hid⟩
      exact ⟨r, hr, by simp [hid]⟩
  · intro h
    have hfe : eng.rules.filter (fun r => !decide (r.id = rid)) = eng.rules := by
      refine List.filter_eq_self.2 ?_
      intro r hr
      simp only [Bool.not_eq_true', decide_eq_false_iff_not]
      intro hid
      exact h ⟨r, hr, hid⟩
    have hpred : (fun r : AlertRule => decide (r.id ≠ rid)) =
        (fun r : AlertRule => !decide (r.id = rid)) := by
      funext r
      simp
    constructor
    · simp only [AlertEngine.remove_rule, hpred, hfe]
    · simp only [AlertEngine.remove_rule, hpred, hfe]
      simp

def ruleW : AlertRule :=
  { id := "r1", name := "High CPU", metric := "cpu_percent",
    operator := "gte", value := 90 }

def engW : AlertEngine := { rules := [ruleW] }

/-- Witness for C9 on a one-rule engine. -/
theorem add_remove_rule_spec_witness :
    engW.add_rule ruleW = engW ∧
    (engW.remove_rule "r1").2 = true ∧
    (engW.remove_rule "zzz").1 = engW ∧ (engW.remove_rule "zzz").2 = false :=
  ⟨(add_remove_rule_spec engW ruleW "r1").1 ⟨ruleW, by decide, rfl⟩,
   (add_remove_rule_spec engW ruleW "r1").2.1.2 ⟨ruleW, by decide, rfl⟩,
   (add_remove_rule_spec engW ruleW "zzz").2.2 (by decide)⟩



def evW : AlertEvent :=
  { rule_id := "r1", rule_name := "High CPU", metric := "cpu_percent",
    value := 95, threshold := 90, severity := AlertSeverity.warning,
    message := "cpu", timestamp := 100 }

def engEvents : AlertEngine := { events := [evW] }

/-- Counterexample to claim C10 as stated: at limit = 0 the Python
slice [-0:] is the whole list, so get_events 0 on a one-event engine
returns one event, more than the limit. -/
theorem get_events_zero_counterexample :
    ¬ ((engEvents.get_events 0).length ≤ 0) := by decide

/-- Claim C10 amended: for every limit of at least one, get_events
returns the most recently appended events ordered newest first and at
most limit of them, while get_events 0 returns the whole history newest
first; get_events reads the engine without modifying it, which the
embedding reflects by being a pure function of the engine. -/
theorem get_events_spec (eng : AlertEngine) (limit : ℕ) (h : 1 ≤ limit) :
    eng.get_events limit = eng.events.reverse.take limit ∧
    (eng.get_events limit).length ≤ limit ∧
    eng.get_events 0 = eng.events.reverse := by
  have hlim : ¬ limit = 0 := by omega
  have h1 : eng.get_events limit =
      (eng.events.drop (eng.events.length - limit)).reverse := by
    simp [AlertEngine.get_events, hlim]
  have h2 : eng.events.reverse.take limit =
      (eng.events.drop (eng.events.length - limit)).reverse := by
    have hrt := List.reverse_take (l := eng.events.reverse) (n := limit)
    simp only [List.length_reverse, List.reverse_reverse] at hrt
    rw [← hrt, List.reverse_reverse]
  refine ⟨by rw [h1, h2], ?_, by simp [AlertEngine.get_events]⟩
  rw [h1]
  simp only [List.length_reverse, List.length_drop]
  omega

/-- Witness for C10 amended at a concrete engine and limit. -/
theorem get_events_spec_witness :
    engEvents.get_events 2 = engEvents.events.reverse.take 2 ∧
    (engEvents.get_events 2).length ≤ 2 ∧
    engEvents.get_events 0 = engEvents.events.reverse :=
  get_events_spec engEvents 2 (by decide)



theorem runCache_hit (t t1 ttl : ℚ) (s out1 : String) (h : t1 - t < ttl) :
    runPowermetricsCached (some (t, s)) t1 ttl out1 = (s, some (t, s), false) := by
  simp [runPowermetricsCached, h]

theorem runCache_cachesNonempty (cache : Option (ℚ × String)) (t ttl : ℚ)
    (out : String) (hout : out ≠ "")
    (hinv : (runPowermetricsCached cache t ttl out).2.2 = true) :
    (runPowermetricsCached cache t ttl out).2.1 = some (t, out) := by
  rcases cache with _ | ⟨tc, sc⟩
  · simp [runPowermetricsCached, hout]
  · by_cases hh : t - tc < ttl
    · simp [runPowermetricsCached, hh] at hinv
    · simp [runPowermetricsCached, hh, hout]

/-- Claim C5: after a run that invoked the tool and cached non-empty
output at time t, a call within the TTL returns the identical cached
text without invoking the tool, a call at or past the TTL invokes it
again, an empty run leaves the cache unchanged, and a call after an
empty run that invoked the tool invokes it again immediately. -/
theorem powermetrics_cache_spec (cache : Option (ℚ × String))
    (t t1 ttl : ℚ) (out out1 : String) :
    (out ≠ "" → (runPowermetricsCached cache t ttl out).2.2 = true →
      t1 - t < ttl →
      runPowermetricsCached (runPowermetricsCached cache t ttl out).2.1 t1 ttl out1
        = (out, some (t, out), false)) ∧
    (out ≠ "" → (runPowermetricsCached cache t ttl out).2.2 = true →
      ttl ≤ t1 - t →
      (runPowermetricsCached (runPowermetricsCached cache t ttl out).2.1
        t1 ttl out1).2.2 = true) ∧
    ((runPowermetricsCached cache t ttl "").2.1 = cache) ∧
    ((runPowermetricsCached cache t ttl "").2.2 = true → t ≤ t1 →
      (runPowermetricsCached cache t1 ttl out1).2.2 = true) := by
  refine ⟨?_, ?_, ?_, ?_⟩
  · intro hout hinv hlt
    rw [runCache_cachesNonempty cache t ttl out hout hinv]
    exact runCache_hit t t1 ttl out out1 hlt
  · intro hout hinv hge
    rw [runCache_cachesNonempty cache t ttl out hout hinv]
    have : ¬ (t1 - t < ttl) := by linarith
    simp [runPowermetricsCached, this]
  · rcases cache with _ | ⟨tc, sc⟩
    · simp [runPowermetricsCached]
    · by_cases hh : t - tc < ttl
      · simp [runPowermetricsCached, hh]
      · simp [runPowermetricsCached, hh]
  · intro hinv hle
    rcases cache with _ | ⟨tc, sc⟩
    · simp [runPowermetricsCached]
    · by_cases hh : t - tc < ttl
      · simp [runPowermetricsCached, hh] at hinv
      · have : ¬ (t1 - tc < ttl) := by linarith
        simp [runPowermetricsCached, this]

/-- Witness for C5 at concrete times and output. -/
theorem powermetrics_cache_spec_witness :
    (runPowermetricsCached (runPowermetricsCached none 10 2 "raw").2.1 11 2 "other"
      = ("raw", some (10, "raw"), false)) ∧
    ((runPowermetricsCached (runPowermetricsCached none 10 2 "raw").2.1 13 2 "other").2.2
      = true) ∧
    ((runPowermetricsCached (some (1, "old")) 10 2 "").2.1 = some (1, "old")) ∧
    ((runPowermetricsCached (some (1, "old")) 11 2 "other").2.2 = true) := by
  refine ⟨?_, ?_, ?_, ?_⟩
  · exact (powermetrics_cache_spec none 10 11 2 "raw" "other").1
      (by decide) (by rfl) (by norm_num)
  · exact (powermetrics_cache_spec none 10 13 2 "raw" "other").2.1
      (by decide) (by rfl) (by norm_num)
  · exact (powermetrics_cache_spec (some (1, "old")) 10 11 2 "x" "other").2.2.1
  · exact (powermetrics_cache_spec (some (1, "old")) 10 11 2 "x" "other").2.2.2
      (by norm_num [runPowermetricsCached]) (by norm_num)



theorem mergeKey_lookup_ne (acc : List (String × Val)) (k1 k : String)
    (v : Val) (h : k1 ≠ k) : dictGet (mergeKey acc k1 v) k = dictGet acc k := by
  rcases hacc : dictGet acc k1 with _ | val
  · simp [mergeKey, hacc, dictGet_dictSet_ne acc k1 k v h]
  · cases val <;> cases v <;>
      simp [mergeKey, hacc, dictGet_dictSet_ne acc k1 k _ h]

theorem mergeKey_lookup_self (acc : List (String × Val)) (k : String)
    (v : Val) :
    dictGet (mergeKey acc k v) k =
      (match dictGet acc k, v with
       | some (Val.dict td), Val.dict vd =>
           some (Val.dict (vd.foldl (fun a kv => dictSet a kv.1 kv.2) td))
       | _, _ => some v) := by
  rcases hacc : dictGet acc k with _ | val
  · simp [mergeKey, hacc, dictGet_dictSet_self]
  · cases val <;> cases v <;> simp [mergeKey, hacc, dictGet_dictSet_self]

theorem foldl_mergeKey_lookup_ne (l : List (String × Val))
    (acc : List (String × Val)) (k : String) (h : ∀ kv ∈ l, kv.1 ≠ k) :
    dictGet (l.foldl (fun a kv => mergeKey a kv.1 kv.2) acc) k
      = dictGet acc k := by
  induction l generalizing acc with
  | nil => rfl
  | cons hd tl ih =>
      rw [List.foldl_cons, ih _ (fun kv hkv => h kv (List.mem_cons_of_mem hd hkv)),
        mergeKey_lookup_ne acc hd.1 k hd.2 (h hd (List.mem_cons_self hd tl))]

theorem foldl_dictSet_lookup_ne (l : List (String × Val))
    (acc : List (String × Val)) (k : String) (h : ∀ kv ∈ l, kv.1 ≠ k) :
    dictGet (l.foldl (fun a kv => dictSet a kv.1 kv.2) acc) k
      = dictGet acc k := by
  induction l generalizing acc with
  | nil => rfl
  | cons hd tl ih =>
      rw [List.foldl_cons, ih _ (fun kv hkv => h kv (List.mem_cons_of_mem hd hkv)),
        dictGet_dictSet_ne acc hd.1 k hd.2 (h hd (List.mem_cons_self hd tl))]

theorem foldl_dictSet_lookup (vd td : List (String × Val)) (kk : String)
    (hnd : (vd.map Prod.fst).Nodup) :
    dictGet (vd.foldl (fun a kv => dictSet a kv.1 kv.2) td) kk
      = (dictGet vd kk).or (dictGet td kk) := by
  induction vd generalizing td with
  | nil => simp [dictGet]
  | cons hd tl ih =>
      obtain ⟨k1, v1⟩ := hd
      simp only [List.map_cons, List.nodup_cons, List.mem_map] at hnd
      obtain ⟨hk1, hndtl⟩ := hnd
      rw [List.foldl_cons]
      by_cases hk : k1 = kk
      · subst hk
        have htl : ∀ kv ∈ tl, kv.1 ≠ k1 := by
          intro kv hkv heq
          exact hk1 ⟨kv, hkv, heq⟩
        rw [foldl_dictSet_lookup_ne tl _ k1 htl, dictGet_dictSet_self]
        simp [dictGet]
      · rw [ih _ hndtl]
        simp only [dictGet, hk, if_false]
        rw [dictGet_dictSet_ne td k1 kk v1 hk]

theorem merge_into_lookup (l : List (String × Val))
    (target : List (String × Val)) (k : String)
    (hnd : (l.map Prod.fst).Nodup) :
    dictGet (l.foldl (fun acc kv => mergeKey acc kv.1 kv.2) target) k
      = (match dictGet l k, dictGet target k with
         | none, _ => dictGet target k
         | some (Val.dict vd), some (Val.dict td) =>
             some (Val.dict (vd.foldl (fun a kv => dictSet a kv.1 kv.2) td))
         | some v, _ => some v) := by
  induction l generalizing target with
  | nil => rfl
  | cons hd tl ih =>
      obtain ⟨k1, v1⟩ := hd
      simp only [List.map_cons, List.nodup_cons, List.mem_map] at hnd
      obtain ⟨hk1, hndtl⟩ := hnd
      rw [List.foldl_cons]
      by_cases hk : k1 = k
      · subst hk
        have htl : ∀ kv ∈ tl, kv.1 ≠ k1 := by
          intro kv hkv heq
          exact hk1 ⟨kv, hkv, heq⟩
        rw [foldl_mergeKey_lookup_ne tl _ k1 htl, mergeKey_lookup_self]
        simp only [dictGet, if_pos rfl]
        rcases htgt : dictGet target k1 with _ | tv
        · cases v1 <;> rfl
        · cases tv <;> cases v1 <;> rfl
      · rw [ih _ hndtl, mergeKey_lookup_ne target k1 k v1 hk]
        simp only [dictGet, hk, if_false]

/-- Claim C2 amended: for a top-level key present in both sides with
both values mappings, merge_into merges the incoming mapping into the
accumulator mapping one level deep, each incoming entry replacing the
accumulator entry wholesale; otherwise the incoming value replaces the
accumulator value wholesale; the concrete example of the spec holds. -/
theorem merge_into_spec (r : CollectorResult) (target : List (String × Val))
    (k : String) (hnd : (r.data.map Prod.fst).Nodup) :
    (dictGet (merge_into r target) k
      = (match dictGet r.data k, dictGet target k with
         | none, _ => dictGet target k
         | some (Val.dict vd), some (Val.dict td) =>
             some (Val.dict (vd.foldl (fun a kv => dictSet a kv.1 kv.2) td))
         | some v, _ => some v)) ∧
    (∀ (td vd : List (String × Val)) (kk : String),
      ((vd.map Prod.fst).Nodup) →
      dictGet (vd.foldl (fun a kv => dictSet a kv.1 kv.2) td) kk
        = (dictGet vd kk).or (dictGet td kk)) ∧
    merge_into { data := [("a", Val.num 1), ("b", Val.dict [("x", Val.num 10)])] }
        [("b", Val.dict [("y", Val.num 20)])]
      = [("b", Val.dict [("y", Val.num 20), ("x", Val.num 10)]),
         ("a", Val.num 1)] :=
  ⟨merge_into_lookup r.data target k hnd,
   fun td vd kk h => foldl_dictSet_lookup vd td kk h, rfl⟩

/-- The incoming result of the C2 counterexample, with a mapping nested
two levels deep. -/
def c2data : CollectorResult :=
  { data := [("b", Val.dict [("x", Val.dict [("q", Val.num 2)])])] }

/-- The accumulator of the C2 counterexample. -/
def c2target : List (String × Val) :=
  [("b", Val.dict [("x", Val.dict [("p", Val.num 1)])])]

/-- Lookup three levels down. -/
def nestedGet3 (d : List (String × Val)) (k1 k2 k3 : String) : Option Val :=
  match dictGet d k1 with
  | some (Val.dict d2) =>
      match dictGet d2 k2 with
      | some (Val.dict d3) => dictGet d3 k3
      | _ => none
  | _ => none

/-- Counterexample to claim C2 as stated: merge_into is not the fully
recursive leaf-overwrite merge; at depth two the incoming mapping
replaces the accumulator mapping wholesale, losing the non-overlapping
nested key p that the recursive merge of the spec words preserves. -/
theorem merge_into_not_recursive :
    nestedGet3 (merge_into c2data c2target) "b" "x" "p" = none ∧
    nestedGet3 (specMergeEntries c2target c2data.data) "b" "x" "p"
      = some (Val.num 1) ∧
    merge_into c2data c2target ≠ specMergeEntries c2target c2data.data := by
  refine ⟨rfl, rfl, fun h => ?_⟩
  have h1 : nestedGet3 (merge_into c2data c2target) "b" "x" "p" = none := rfl
  rw [h] at h1
  have h2 : nestedGet3 (specMergeEntries c2target c2data.data) "b" "x" "p"
      = some (Val.num 1) := rfl
  rw [h1] at h2
  exact Option.noConfusion h2

/-- Witness for C2 amended at the concrete example of the spec. -/
theorem merge_into_spec_witness :
    dictGet (merge_into
        { data := [("a", Val.num 1), ("b", Val.dict [("x", Val.num 10)])] }
        [("b", Val.dict [("y", Val.num 20)])]) "b"
      = some (Val.dict [("y", Val.num 20), ("x", Val.num 10)]) :=
  (merge_into_spec
    { data := [("a", Val.num 1), ("b", Val.dict [("x", Val.num 10)])] }
    [("b", Val.dict [("y", Val.num 20)])] "b" (by decide)).1



theorem evalStep_cases (metrics : List (String × PyVal)) (now : ℚ)
    (maxE : ℕ) (st : EvalState) (r : AlertRule) :
    evalStep metrics now maxE st r = st ∨
    ∃ val : ℚ,
      r.enabled = true ∧
      get_metric_value metrics r.metric = some val ∧
      eval_rule r val = true ∧
      r.cooldown_sec ≤ now - (dictGet st.lastFire r.id).getD 0 ∧
      evalStep metrics now maxE st r =
        { events := trimEvents maxE (st.events ++ [mkEvent r val now])
          lastFire := dictSet st.lastFire r.id now
          newEvents := st.newEvents ++ [mkEvent r val now] } := by
  by_cases h1 : r.enabled = true
  · rcases hm : get_metric_value metrics r.metric with _ | val
    · left
      simp [evalStep, h1, hm]
    · by_cases he : eval_rule r val = true
      · by_cases hc : now - (dictGet st.lastFire r.id).getD 0 < r.cooldown_sec
        · left
          simp [evalStep, h1, hm, he, hc]
        · right
          exact ⟨val, h1, rfl, he, le_of_not_lt hc,
            by simp [evalStep, h1, hm, he, hc]⟩
      · left
        simp [evalStep, h1, hm, he]
  · left
    simp [evalStep, h1]



theorem trimEvents_length_le (maxE : ℕ) (l : List AlertEvent) :
    (trimEvents maxE l).length ≤ maxE := by
  induction l with
  | nil => simp [trimEvents]
  | cons e rest ih =>
      rw [trimEvents]
      by_cases h : maxE < (e :: rest).length
      · rw [if_pos h]
        exact ih
      · rw [if_neg h]
        exact Nat.le_of_not_lt h

theorem trimEvents_eq_of_le (maxE : ℕ) (l : List AlertEvent)
    (h : l.length ≤ maxE) : trimEvents maxE l = l := by
  cases l with
  | nil => rfl
  | cons e rest =>
      rw [trimEvents, if_neg (Nat.not_lt_of_le h)]

theorem trimEvents_evict (l : List AlertEvent) (e : AlertEvent)
    (h : l.length = 500) :
    trimEvents 500 (l ++ [e]) = l.tail ++ [e] := by
  cases l with
  | nil => simp at h
  | cons x rest =>
      simp only [List.length_cons] at h
      rw [List.cons_append, trimEvents]
      rw [if_pos (by simp [h])]
      rw [trimEvents_eq_of_le 500 (rest ++ [e]) (by simp [h])]
      rfl

theorem evalStep_events_length (metrics : List (String × PyVal)) (now : ℚ)
    (maxE : ℕ) (st : EvalState) (r : AlertRule)
    (h : st.events.length ≤ maxE) :
    (evalStep metrics now maxE st r).events.length ≤ maxE := by
  rcases evalStep_cases metrics now maxE st r with heq | ⟨val, _, _, _, _, heq⟩
  · rw [heq]
    exact h
  · rw [heq]
    exact trimEvents_length_le maxE _

theorem evalRules_events_length (metrics : List (String × PyVal)) (now : ℚ)
    (maxE : ℕ) (rs : List AlertRule) (st : EvalState)
    (h : st.events.length ≤ maxE) :
    (evalRules metrics now maxE rs st).events.length ≤ maxE := by
  induction rs generalizing st with
  | nil => exact h
  | cons r rest ih =>
      rw [evalRules]
      exact ih _ (evalStep_events_length metrics now maxE st r h)

/-- Claim C3: the event history stays bounded by 500 across evaluate
calls, and the append of a 501st event inside evaluate evicts the
oldest event first. -/
theorem event_history_bounded (eng : AlertEngine)
    (metrics : List (String × PyVal)) (now : ℚ)
    (hmax : eng.maxEvents = 500) (h : eng.events.length ≤ 500) :
    ((eng.evaluate metrics now).1.events.length ≤ 500) ∧
    (∀ (l : List AlertEvent) (e : AlertEvent), l.length = 500 →
      trimEvents 500 (l ++ [e]) = l.tail ++ [e]) := by
  constructor
  · show (evalRules metrics now eng.maxEvents eng.rules
      ⟨eng.events, eng.lastFire, []⟩).events.length ≤ 500
    rw [hmax]
    exact evalRules_events_length metrics now 500 eng.rules _ h
  · exact trimEvents_evict



/-- Witness for C3 at a concrete engine and a concrete 500-event list. -/
theorem event_history_bounded_witness :
    ((engEvents.evaluate [] 0).1.events.length ≤ 500) ∧
    trimEvents 500 (List.replicate 500 evW ++ [evW])
      = (List.replicate 500 evW).tail ++ [evW] :=
  ⟨(event_history_bounded engEvents [] 0 rfl (by decide)).1,
   (event_history_bounded engEvents [] 0 rfl (by decide)).2
     (List.replicate 500 evW) evW (List.length_replicate 500 evW)⟩



/-- Whether the event list holds an event for the given rule id. -/
def hasEventFor (es : List AlertEvent) (rid : String) : Bool :=
  es.any (fun e => e.rule_id = rid)

theorem hasEventFor_append (es1 es2 : List AlertEvent) (rid : String) :
    hasEventFor (es1 ++ es2) rid
      = (hasEventFor es1 rid || hasEventFor es2 rid) := by
  simp [hasEventFor]

theorem evalStep_frame (metrics : List (String × PyVal)) (now : ℚ)
    (maxE : ℕ) (st : EvalState) (r : AlertRule) (rid : String)
    (h : r.id ≠ rid) :
    dictGet (evalStep metrics now maxE st r).lastFire rid
        = dictGet st.lastFire rid ∧
    hasEventFor (evalStep metrics now maxE st r).newEvents rid
        = hasEventFor st.newEvents rid := by
  rcases evalStep_cases metrics now maxE st r with heq | ⟨val, _, _, _, _, heq⟩
  · rw [heq]
    exact ⟨rfl, rfl⟩
  · rw [heq]
    constructor
    · exact dictGet_dictSet_ne st.lastFire r.id rid now h
    · rw [hasEventFor_append]
      simp [hasEventFor, mkEvent, h]

theorem evalRules_cooldown_frame (metrics : List (String × PyVal))
    (now : ℚ) (maxE : ℕ) (rs : List AlertRule) (st : EvalState)
    (rid : String) (t : ℚ)
    (hlf : dictGet st.lastFire rid = some t)
    (hcd : ∀ r ∈ rs, r.id = rid → now - t < r.cooldown_sec) :
    dictGet (evalRules metrics now maxE rs st).lastFire rid = some t ∧
    hasEventFor (evalRules metrics now maxE rs st).newEvents rid
      = hasEventFor st.newEvents rid := by
  induction rs generalizing st with
  | nil => exact ⟨hlf, rfl⟩
  | cons r rest ih =>
      rw [evalRules]
      by_cases hid : r.id = rid
      · have hstep : evalStep metrics now maxE st r = st := by
          rcases evalStep_cases metrics now maxE st r with heq |
            ⟨val, _, _, _, hcool, heq⟩
          · exact heq
          · exfalso
            rw [hid, hlf] at hcool
            have := hcd r (List.mem_cons_self r rest) hid
            simp only [Option.getD_some] at hcool
            linarith
        rw [hstep]
        exact ih st hlf (fun r1 h1 => hcd r1 (List.mem_cons_of_mem r h1))
      · obtain ⟨hf1, hf2⟩ := evalStep_frame metrics now maxE st r rid hid
        have := ih (evalStep metrics now maxE st r) (hf1.trans hlf)
          (fun r1 h1 => hcd r1 (List.mem_cons_of_mem r h1))
        exact ⟨this.1, this.2.trans hf2⟩

theorem evalRules_lastFire_of_fired (metrics : List (String × PyVal))
    (now : ℚ) (maxE : ℕ) (rs : List AlertRule) (st : EvalState)
    (rid : String)
    (hinv : hasEventFor st.newEvents rid = true →
      dictGet st.lastFire rid = some now)
    (hfired : hasEventFor (evalRules metrics now maxE rs st).newEvents rid
      = true) :
    dictGet (evalRules metrics now maxE rs st).lastFire rid = some now := by
  induction rs generalizing st with
  | nil => exact hinv hfired
  | cons r rest ih =>
      rw [evalRules] at hfired ⊢
      refine ih _ ?_ hfired
      intro hf
      rcases evalStep_cases metrics now maxE st r with heq |
        ⟨val, _, _, _, _, heq⟩
      · rw [heq] at hf ⊢
        exact hinv hf
      · rw [heq] at hf ⊢
        by_cases hid : r.id = rid
        · rw [← hid]
          exact dictGet_dictSet_self st.lastFire r.id now
        · rw [dictGet_dictSet_ne st.lastFire r.id rid now hid]
          rw [hasEventFor_append] at hf
          simp only [hasEventFor, List.any_cons, List.any_nil,
            Bool.or_false, mkEvent, decide_eq_true_eq] at hf
          rcases Bool.or_eq_true_iff.1 hf with hf1 | hf2
          · exact hinv hf1
          · exact absurd (by simpa using hf2) hid

theorem evalRules_newEvents_mono (metrics : List (String × PyVal))
    (now : ℚ) (maxE : ℕ) (rs : List AlertRule) (st : EvalState) :
    ∃ suf, (evalRules metrics now maxE rs st).newEvents
      = st.newEvents ++ suf := by
  induction rs generalizing st with
  | nil => exact ⟨[], by simp [evalRules]⟩
  | cons r rest ih =>
      rw [evalRules]
      rcases evalStep_cases metrics now maxE st r with heq |
        ⟨val, _, _, _, _, heq⟩
      · rw [heq]
        exact ih st
      · obtain ⟨suf, hsuf⟩ := ih (evalStep metrics now maxE st r)
        rw [hsuf, heq]
        exact ⟨[mkEvent r val now] ++ suf, by simp⟩

theorem evalRules_enabled_of_fired (metrics : List (String × PyVal))
    (now : ℚ) (maxE : ℕ) (rs : List AlertRule) (st : EvalState)
    (rid : String)
    (hfired : hasEventFor (evalRules metrics now maxE rs st).newEvents rid
      = true) :
    hasEventFor st.newEvents rid = true ∨
    ∃ r ∈ rs, r.id = rid ∧ r.enabled = true := by
  induction rs generalizing st with
  | nil => exact Or.inl hfired
  | cons r rest ih =>
      rw [evalRules] at hfired
      rcases ih _ hfired with hbase | ⟨r1, h1, h2, h3⟩
      · rcases evalStep_cases metrics now maxE st r with heq |
          ⟨val, hen, _, _, _, heq⟩
        · rw [heq] at hbase
          exact Or.inl hbase
        · rw [heq] at hbase
          rw [hasEventFor_append] at hbase
          rcases Bool.or_eq_true_iff.1 hbase with hf1 | hf2
          · exact Or.inl hf1
          · simp only [hasEventFor, List.any_cons, List.any_nil,
              Bool.or_false, mkEvent, decide_eq_true_eq] at hf2
            exact Or.inr ⟨r, List.mem_cons_self r rest, hf2, hen⟩
      · exact Or.inr ⟨r1, List.mem_cons_of_mem r h1, h2, h3⟩

theorem evalRules_fires (metrics1 : List (String × PyVal)) (now : ℚ)
    (maxE : ℕ) (rs : List AlertRule) (st : EvalState) (r : AlertRule)
    (t v1 : ℚ)
    (hmem : r ∈ rs) (hnd : (rs.map AlertRule.id).Nodup)
    (hlf : dictGet st.lastFire r.id = some t)
    (hen : r.enabled = true)
    (hval : get_metric_value metrics1 r.metric = some v1)
    (hcmp : eval_rule r v1 = true)
    (hcool : r.cooldown_sec ≤ now - t) :
    hasEventFor (evalRules metrics1 now maxE rs st).newEvents r.id
      = true := by
  induction rs generalizing st with
  | nil => exact absurd hmem (List.not_mem_nil r)
  | cons r1 rest ih =>
      simp only [List.map_cons, List.nodup_cons, List.mem_map] at hnd
      obtain ⟨hnotin, hndrest⟩ := hnd
      rw [evalRules]
      rcases List.mem_cons.1 hmem with heq | hmemrest
      · subst heq
        have hstep : evalStep metrics1 now maxE st r =
            { events := trimEvents maxE (st.events ++ [mkEvent r v1 now])
              lastFire := dictSet st.lastFire r.id now
              newEvents := st.newEvents ++ [mkEvent r v1 now] } := by
          have hnc : ¬ (now - (dictGet st.lastFire r.id).getD 0
              < r.cooldown_sec) := by
            rw [hlf]
            simp only [Option.getD_some]
            linarith
          simp [evalStep, hen, hval, hcmp, hnc]
        rw [hstep]
        obtain ⟨suf, hsuf⟩ := evalRules_newEvents_mono metrics1 now maxE rest _
        rw [hsuf]
        simp only [hasEventFor_append, Bool.or_eq_true]
        left
        right
        simp [hasEventFor, mkEvent]
      · have hid : r1.id ≠ r.id := by
          intro heq
          exact hnotin ⟨r, hmemrest, heq.symm⟩
        obtain ⟨hf1, hf2⟩ := evalStep_frame metrics1 now maxE st r1 r.id hid
        exact ih _ hmemrest hndrest (hf1.trans hlf)



/-- Claim C1: if rule r fires during an evaluate call at time t, then a
second evaluate call on a snapshot that also satisfies the comparison
of r yields no new event for r when the elapsed time is below the
cooldown of r, and yields a new event for r when the elapsed time
reaches the cooldown. -/
theorem evaluate_cooldown_spec
    (eng : AlertEngine) (metrics metrics1 : List (String × PyVal))
    (r : AlertRule) (t t1 v1 : ℚ)
    (hnd : (eng.rules.map AlertRule.id).Nodup)
    (hmem : r ∈ eng.rules)
    (hfired : hasEventFor (eng.evaluate metrics t).2 r.id = true)
    (hval : get_metric_value metrics1 r.metric = some v1)
    (hcmp : eval_rule r v1 = true) :
    (t1 - t < r.cooldown_sec →
      hasEventFor ((eng.evaluate metrics t).1.evaluate metrics1 t1).2 r.id
        = false) ∧
    (r.cooldown_sec ≤ t1 - t →
      hasEventFor ((eng.evaluate metrics t).1.evaluate metrics1 t1).2 r.id
        = true) := by
  have hlf1 : dictGet (evalRules metrics t eng.maxEvents eng.rules
      ⟨eng.events, eng.lastFire, []⟩).lastFire r.id = some t :=
    evalRules_lastFire_of_fired metrics t eng.maxEvents eng.rules
      ⟨eng.events, eng.lastFire, []⟩ r.id
      (fun h => absurd h (by simp [hasEventFor])) hfired
  have hen : r.enabled = true := by
    rcases evalRules_enabled_of_fired metrics t eng.maxEvents eng.rules
        ⟨eng.events, eng.lastFire, []⟩ r.id hfired with hbase | ⟨r2, hr2, hid2, hen2⟩
    · simp [hasEventFor] at hbase
    · have hr2r : r2 = r := (List.inj_on_of_nodup_map hnd) hr2 hmem hid2
      rw [← hr2r]
      exact hen2
  constructor
  · intro hlt
    have hcd : ∀ r2 ∈ eng.rules, r2.id = r.id → t1 - t < r2.cooldown_sec := by
      intro r2 hr2 hid2
      have hr2r : r2 = r := (List.inj_on_of_nodup_map hnd) hr2 hmem hid2
      rw [hr2r]
      exact hlt
    exact (evalRules_cooldown_frame metrics1 t1 eng.maxEvents eng.rules
      ⟨(evalRules metrics t eng.maxEvents eng.rules
          ⟨eng.events, eng.lastFire, []⟩).events,
       (evalRules metrics t eng.maxEvents eng.rules
          ⟨eng.events, eng.lastFire, []⟩).lastFire, []⟩
      r.id t hlf1 hcd).2
  · intro hge
    exact evalRules_fires metrics1 t1 eng.maxEvents eng.rules
      ⟨(evalRules metrics t eng.maxEvents eng.rules
          ⟨eng.events, eng.lastFire, []⟩).events,
       (evalRules metrics t eng.maxEvents eng.rules
          ⟨eng.events, eng.lastFire, []⟩).lastFire, []⟩
      r t v1 hmem hnd hlf1 hen hval hcmp hge



theorem evaluate_fires_concrete :
    hasEventFor (engW.evaluate [("cpu_percent", PyVal.num 95)] 100).2 "r1"
      = true := by
  have h95 : (95 : ℚ) ≥ 90 := by norm_num
  have hcd : ¬ ((100 : ℚ) < 60) := by norm_num
  have hcd2 : ¬ ((100 : ℚ) - 0 < 60) := by norm_num
  simp [AlertEngine.evaluate, evalRules, evalStep, engW, ruleW,
    get_metric_value, eval_rule, dictGet, hasEventFor, mkEvent, trimEvents,
    mkMessage, dictSet, h95, hcd, hcd2]

/-- Witness for C1 at a one-rule engine: fired at t = 100, a qualifying
snapshot at t = 130 yields no event, one at t = 160 fires again. -/
theorem evaluate_cooldown_spec_witness :
    hasEventFor ((engW.evaluate [("cpu_percent", PyVal.num 95)] 100).1.evaluate
      [("cpu_percent", PyVal.num 99)] 130).2 "r1" = false ∧
    hasEventFor ((engW.evaluate [("cpu_percent", PyVal.num 95)] 100).1.evaluate
      [("cpu_percent", PyVal.num 99)] 160).2 "r1" = true :=
  ⟨(evaluate_cooldown_spec engW [("cpu_percent", PyVal.num 95)]
      [("cpu_percent", PyVal.num 99)] ruleW 100 130 99
      (by simp [engW, ruleW]) (List.mem_cons_self ruleW [])
      evaluate_fires_concrete
      (by simp [get_metric_value, dictGet, ruleW])
      (by simp [eval_rule, ruleW]; norm_num)).1 (by norm_num [ruleW]),
   (evaluate_cooldown_spec engW [("cpu_percent", PyVal.num 95)]
      [("cpu_percent", PyVal.num 99)] ruleW 100 160 99
      (by simp [engW, ruleW]) (List.mem_cons_self ruleW [])
      evaluate_fires_concrete
      (by simp [get_metric_value, dictGet, ruleW])
      (by simp [eval_rule, ruleW]; norm_num)).2 (by norm_num [ruleW])⟩



/-- Closed form of collect on macOS with psutil available: one equation
per snapshot field. -/
theorem collect_eq (env : CollectEnv)
    (hplat : env.platformSystem = "Darwin")
    (hps : env.psutilAvailable = true) :
    collect env =
      { cpu_percent := env.cpuPercent
        cpu_count := env.cpuCount.getD 0
        memory_total_gb := env.vmemTotal / GB
        memory_used_gb := env.vmemUsed / GB
        memory_percent := env.vmemPercent
        disk_total_gb := if env.diskOk then env.diskTotal / GB else 0
        disk_used_gb := if env.diskOk then env.diskUsed / GB else 0
        disk_percent := if env.diskOk then env.diskPercent else 0
        temperatures := mergeNoOverwrite env.pmTemps env.extTemps
        fan_speeds := mergeNoOverwrite env.pmFans env.extFans
        battery_percent :=
          if env.batteryOk then
            (match env.battery with
             | some (p, _) => some p
             | none => none)
          else none
        battery_plugged :=
          if env.batteryOk then
            (match env.battery with
             | some (_, plugged) => some plugged
             | none => none)
          else none
        power_estimates := env.pmPower
        thermal_pressure := env.pmPressure
        smc_available :=
          if env.extTemps ≠ [] ∨ env.extFans ≠ [] then true else env.pmHasHw
        error := none
        swap_total_gb := if env.swapOk then env.swapTotal / GB else 0
        swap_used_gb := if env.swapOk then env.swapUsed / GB else 0
        swap_percent := if env.swapOk then env.swapPercent else 0
        disk_read_bytes :=
          if env.diskIoOk then
            (match env.diskIoCounters with
             | some (r, _) => r
             | none => 0)
          else 0
        disk_write_bytes :=
          if env.diskIoOk then
            (match env.diskIoCounters with
             | some (_, w) => w
             | none => 0)
          else 0
        uptime_sec := if env.bootOk then env.now - env.bootTime else 0
        timestamp := env.now } := by
  rw [collect]
  rw [if_neg (by simp [hplat]), if_neg (by simp [hps])]
  rcases henv : env.diskIoCounters with _ | ⟨r, w⟩ <;>
    rcases hbat : env.battery with _ | ⟨p, plugged⟩ <;>
    cases hswap : env.swapOk <;>
    cases hdisk : env.diskOk <;>
    cases hio : env.diskIoOk <;>
    cases hboot : env.bootOk <;>
    cases hbok : env.batteryOk <;>
    by_cases hext : env.extTemps ≠ [] ∨ env.extFans ≠ [] <;>
    simp [henv, hbat, hswap, hdisk, hio, hboot, hbok, hext]

theorem foldl_noOverwrite_preserves {α : Type} (extra : List (String × α))
    (acc : List (String × α)) (k : String) (v : α)
    (h : dictGet acc k = some v) :
    dictGet (extra.foldl
      (fun a kv => if dictMem a kv.1 then a else dictSet a kv.1 kv.2) acc) k
      = some v := by
  induction extra generalizing acc with
  | nil => exact h
  | cons hd tl ih =>
      rw [List.foldl_cons]
      by_cases hm : dictMem acc hd.1
      · rw [if_pos hm]
        exact ih acc h
      · rw [if_neg hm]
        apply ih
        by_cases hk : hd.1 = k
        · subst hk
          rw [dictMem, h] at hm
          simp at hm
        · rw [dictGet_dictSet_ne acc hd.1 k hd.2 hk]
          exact h

theorem foldl_noOverwrite_fills {α : Type} (extra : List (String × α))
    (acc : List (String × α)) (k : String)
    (h : dictGet acc k = none) :
    dictGet (extra.foldl
      (fun a kv => if dictMem a kv.1 then a else dictSet a kv.1 kv.2) acc) k
      = dictGet extra k := by
  induction extra generalizing acc with
  | nil => simpa [dictGet] using h
  | cons hd tl ih =>
      obtain ⟨k1, v1⟩ := hd
      rw [List.foldl_cons]
      by_cases hk : k1 = k
      · subst hk
        have hm : dictMem acc k1 = false := by
          rw [dictMem, h]
          rfl
        rw [if_neg (by rw [hm]; exact Bool.false_ne_true)]
        rw [foldl_noOverwrite_preserves tl _ k1 v1
          (dictGet_dictSet_self acc k1 v1)]
        simp [dictGet]
      · have hget : dictGet ((k1, v1) :: tl) k = dictGet tl k := by
          simp [dictGet, hk]
        rw [hget]
        by_cases hm : dictMem acc k1
        · rw [if_pos hm]
          exact ih acc h
        · rw [if_neg hm]
          refine ih _ ?_
          rw [dictGet_dictSet_ne acc k1 k v1 hk]
          exact h

/-- Claim C8: when collect merges the external tools readings after the
primary powermetrics parse, every key the primary produced keeps its
primary value, and only keys absent from the primary are filled from
the external tools. -/
theorem collect_sensor_precedence (env : CollectEnv)
    (hplat : env.platformSystem = "Darwin")
    (hps : env.psutilAvailable = true) (k : String) :
    ((collect env).temperatures = mergeNoOverwrite env.pmTemps env.extTemps) ∧
    ((collect env).fan_speeds = mergeNoOverwrite env.pmFans env.extFans) ∧
    (∀ v : ℚ, dictGet env.pmTemps k = some v →
      dictGet (collect env).temperatures k = some v) ∧
    (dictGet env.pmTemps k = none →
      dictGet (collect env).temperatures k = dictGet env.extTemps k) ∧
    (∀ rpm : ℤ, dictGet env.pmFans k = some rpm →
      dictGet (collect env).fan_speeds k = some rpm) ∧
    (dictGet env.pmFans k = none →
      dictGet (collect env).fan_speeds k = dictGet env.extFans k) := by
  rw [collect_eq env hplat hps]
  refine ⟨rfl, rfl, ?_, ?_, ?_, ?_⟩
  · intro v hv
    exact foldl_noOverwrite_preserves env.extTemps env.pmTemps k v hv
  · intro hnone
    exact foldl_noOverwrite_fills env.extTemps env.pmTemps k hnone
  · intro rpm hv
    exact foldl_noOverwrite_preserves env.extFans env.pmFans k rpm hv
  · intro hnone
    exact foldl_noOverwrite_fills env.extFans env.pmFans k hnone

/-- A concrete collect environment in which the primary source and the
external tools disagree on the CPU temperature. -/
def envSensors : CollectEnv :=
  { platformSystem := "Darwin"
    psutilAvailable := true
    now := 1000
    pmTemps := [("CPU", 55)]
    pmFans := []
    extTemps := [("CPU", 48), ("GPU", 50)]
    extFans := [("fan_0", 1200)] }

/-- Witness for C8: the primary CPU reading survives, the GPU gap and
the fan gap are filled from the external tools. -/
theorem collect_sensor_precedence_witness :
    dictGet (collect envSensors).temperatures "CPU" = some 55 ∧
    dictGet (collect envSensors).temperatures "GPU" = dictGet envSensors.extTemps "GPU" ∧
    dictGet (collect envSensors).fan_speeds "fan_0" = dictGet envSensors.extFans "fan_0" :=
  ⟨(collect_sensor_precedence envSensors rfl rfl "CPU").2.2.1 55 rfl,
   (collect_sensor_precedence envSensors rfl rfl "GPU").2.2.2.1 rfl,
   (collect_sensor_precedence envSensors rfl rfl "fan_0").2.2.2.2.2 rfl⟩



/-- A concrete non-macOS collect environment. -/
def envNonDarwin : CollectEnv := { platformSystem := "Linux", now := 100 }

/-- Counterexample to claim C4 as stated: on a non-macOS platform
collect sets the error, but the timestamp field is set to the
collection time rather than keeping its default zero value. -/
theorem collect_non_darwin_counterexample :
    (collect envNonDarwin).error = some "This tool is for macOS only." ∧
    (collect envNonDarwin).timestamp ≠ ({} : MacMetrics).timestamp := by
  constructor
  · rfl
  · show (100 : ℚ) ≠ 0
    norm_num

/-- Claim C4 amended: on an unsupported platform the host-counters
collector returns success false with a non-null error string and empty
data without raising, and the top-level collect returns the default
snapshot in which only the error and the collection timestamp are
set. -/
theorem platform_mismatch_spec :
    (∀ (env : PsutilEnv) (dmm : ℕ) (inc : Bool),
      env.platformSystem ≠ "Darwin" →
      (psutilCollect dmm inc env).success = false ∧
      ((psutilCollect dmm inc env).error).isSome = true ∧
      (psutilCollect dmm inc env).data = []) ∧
    (∀ env : CollectEnv, env.platformSystem ≠ "Darwin" →
      collect env =
        { timestamp := env.now,
          error := some "This tool is for macOS only." }) := by
  constructor
  · intro env dmm inc hplat
    by_cases hps : env.psutilAvailable = true
    · refine ⟨?_, ?_, ?_⟩ <;> simp [psutilCollect, hps, hplat]
    · refine ⟨?_, ?_, ?_⟩ <;> simp [psutilCollect, hps]
  · intro env hplat
    simp only [collect]
    rw [if_pos hplat]

/-- Witness for C4 amended at the concrete Linux environments. -/
theorem platform_mismatch_spec_witness :
    (psutilCollect 20 true { platformSystem := "Linux" }).success = false ∧
    ((psutilCollect 20 true { platformSystem := "Linux" }).error).isSome = true ∧
    (psutilCollect 20 true { platformSystem := "Linux" }).data = [] ∧
    collect envNonDarwin =
      { timestamp := 100, error := some "This tool is for macOS only." } :=
  ⟨(platform_mismatch_spec.1 { platformSystem := "Linux" } 20 true (by decide)).1,
   (platform_mismatch_spec.1 { platformSystem := "Linux" } 20 true (by decide)).2.1,
   (platform_mismatch_spec.1 { platformSystem := "Linux" } 20 true (by decide)).2.2,
   platform_mismatch_spec.2 envNonDarwin (by decide)⟩



/-- A collect environment whose metrics library reports an impossible
150 for the virtual-memory percent. -/
def envBadPercent : CollectEnv :=
  { platformSystem := "Darwin", psutilAvailable := true, vmemPercent := 150 }

/-- Counterexample to claim C6 as stated: the snapshot copies the
library-reported percent unclamped, so a library report of 150 yields
a snapshot memory percent outside the zero-to-hundred range. -/
theorem collect_percent_counterexample :
    (collect envBadPercent).memory_percent = 150 ∧
    ¬ ((collect envBadPercent).memory_percent ≤ 100) := by
  have h : (collect envBadPercent).memory_percent = 150 := by
    rw [collect_eq envBadPercent rfl rfl]
    rfl
  refine ⟨h, ?_⟩
  rw [h]
  norm_num



/-- Claim C6 amended: the snapshot copies the library values unchanged and
defaults to zero on failure, so whenever the library reports percents
inside the unit range and nonnegative counters, every percent field of
the snapshot lies in the unit range and every counter is nonnegative;
likewise for the per-mount percents of the host-counters collector. -/
theorem metrics_bounds_amended
    (env : CollectEnv) (penv : PsutilEnv) (dmm : ℕ) (inc : Bool)
    (hplat : env.platformSystem = "Darwin")
    (hps : env.psutilAvailable = true)
    (hcpu : 0 ≤ env.cpuPercent ∧ env.cpuPercent ≤ 100)
    (hmem : 0 ≤ env.vmemPercent ∧ env.vmemPercent ≤ 100)
    (hswap : 0 ≤ env.swapPercent ∧ env.swapPercent ≤ 100)
    (hdiskp : 0 ≤ env.diskPercent ∧ env.diskPercent ≤ 100)
    (hbat : ∀ (p : ℚ) (plugged : Bool),
      env.battery = some (p, plugged) → 0 ≤ p ∧ p ≤ 100)
    (hio : ∀ r w : ℤ, env.diskIoCounters = some (r, w) → 0 ≤ r ∧ 0 ≤ w)
    (hup : env.bootTime ≤ env.now)
    (hmounts : ∀ mnt ∈ penv.partitions, 0 ≤ mnt.percent ∧ mnt.percent ≤ 100) :
    ((0 ≤ (collect env).cpu_percent ∧ (collect env).cpu_percent ≤ 100) ∧
     (0 ≤ (collect env).memory_percent ∧ (collect env).memory_percent ≤ 100) ∧
     (0 ≤ (collect env).swap_percent ∧ (collect env).swap_percent ≤ 100) ∧
     (0 ≤ (collect env).disk_percent ∧ (collect env).disk_percent ≤ 100) ∧
     (∀ p : ℚ, (collect env).battery_percent = some p → 0 ≤ p ∧ p ≤ 100) ∧
     (0 ≤ (collect env).disk_read_bytes ∧ 0 ≤ (collect env).disk_write_bytes) ∧
     0 ≤ (collect env).uptime_sec ∧
     (collect env).network = []) ∧
    (∀ ms : List Val,
      dictGet (psutilCollect dmm inc penv).data "disk_mounts"
        = some (Val.list ms) →
      ∀ mv ∈ ms, ∀ (md : List (String × Val)) (p : ℚ),
        mv = Val.dict md → dictGet md "percent" = some (Val.num p) →
        0 ≤ p ∧ p ≤ 100) := by
  have ceq := collect_eq env hplat hps
  have e1 : (collect env).cpu_percent = env.cpuPercent :=
    congrArg MacMetrics.cpu_percent ceq
  have e2 : (collect env).memory_percent = env.vmemPercent :=
    congrArg MacMetrics.memory_percent ceq
  have e3 : (collect env).swap_percent
      = (if env.swapOk = true then env.swapPercent else 0) :=
    congrArg MacMetrics.swap_percent ceq
  have e4 : (collect env).disk_percent
      = (if env.diskOk = true then env.diskPercent else 0) :=
    congrArg MacMetrics.disk_percent ceq
  have e5 : (collect env).battery_percent
      = (if env.batteryOk = true then
          (match env.battery with
           | some (p, _) => some p
           | none => none)
         else none) :=
    congrArg MacMetrics.battery_percent ceq
  have e6 : (collect env).disk_read_bytes
      = (if env.diskIoOk = true then
          (match env.diskIoCounters with
           | some (r, _) => r
           | none => 0)
         else 0) :=
    congrArg MacMetrics.disk_read_bytes ceq
  have e7 : (collect env).disk_write_bytes
      = (if env.diskIoOk = true then
          (match env.diskIoCounters with
           | some (_, w) => w
           | none => 0)
         else 0) :=
    congrArg MacMetrics.disk_write_bytes ceq
  have e8 : (collect env).uptime_sec
      = (if env.bootOk = true then env.now - env.bootTime else 0) :=
    congrArg MacMetrics.uptime_sec ceq
  have e9 : (collect env).network = [] := congrArg MacMetrics.network ceq
  constructor
  · refine ⟨?_, ?_, ?_, ?_, ?_, ?_, ?_, e9⟩
    · rw [e1]
      exact hcpu
    · rw [e2]
      exact hmem
    · rw [e3]
      split_ifs
      · exact hswap
      · norm_num
    · rw [e4]
      split_ifs
      · exact hdiskp
      · norm_num
    · intro p hp
      rw [e5] at hp
      split_ifs at hp
      · rcases hb : env.battery with _ | ⟨q, plugged⟩
        · rw [hb] at hp
          exact Option.noConfusion hp
        · rw [hb] at hp
          have hp2 : q = p := Option.some.inj hp
          rw [← hp2]
          exact hbat q plugged hb
    · constructor
      · rw [e6]
        split_ifs
        · rcases hc : env.diskIoCounters with _ | ⟨r, w⟩
          · norm_num
          · exact (hio r w hc).1
        · norm_num
      · rw [e7]
        split_ifs
        · rcases hc : env.diskIoCounters with _ | ⟨r, w⟩
          · norm_num
          · exact (hio r w hc).2
        · norm_num
    · rw [e8]
      split_ifs
      · linarith
      · norm_num
  · intro ms hms mv hmv md p hmd hp
    by_cases hpsu : penv.psutilAvailable = true
    · by_cases hplat2 : penv.platformSystem = "Darwin"
      · by_cases hinc : inc = true <;>
          by_cases hpart : penv.partitionsOk = true <;>
          simp [psutilCollect, hpsu, hplat2, hinc, hpart, dictGet] at hms <;>
          subst hms
        · obtain ⟨mnt, hmnt, hmveq⟩ := List.mem_map.1 hmv
          rw [← hmveq] at hmd
          simp only [diskMountDict, Val.dict.injEq] at hmd
          rw [← hmd] at hp
          simp [dictGet] at hp
          rw [← hp]
          have hmem2 := List.mem_filter.1 hmnt
          exact hmounts mnt (List.mem_of_mem_take hmem2.1)
        · exact absurd hmv (List.not_mem_nil mv)
        · obtain ⟨mnt, hmnt, hmveq⟩ := List.mem_map.1 hmv
          rw [← hmveq] at hmd
          simp only [diskMountDict, Val.dict.injEq] at hmd
          rw [← hmd] at hp
          simp [dictGet] at hp
          rw [← hp]
          have hmem2 := List.mem_filter.1 hmnt
          exact hmounts mnt (List.mem_of_mem_take hmem2.1)
        · exact absurd hmv (List.not_mem_nil mv)
      · simp [psutilCollect, hpsu, hplat2, dictGet] at hms
    · simp [psutilCollect, hpsu, dictGet] at hms



/-- An in-range collect environment for the C6 witness. -/
def envBounds : CollectEnv :=
  { platformSystem := "Darwin", psutilAvailable := true, now := 1000,
    cpuPercent := 42, vmemPercent := 55, swapPercent := 10,
    diskPercent := 70, bootTime := 200 }

/-- One healthy mount entry. -/
def mnt0 : MountEntry :=
  { mountpoint := "/", total := 500, used := 250, free := 250, percent := 50 }

/-- A host-counters environment with one mount for the C6 witness. -/
def penvBounds : PsutilEnv :=
  { platformSystem := "Darwin", psutilAvailable := true,
    partitions := [mnt0] }

/-- Witness for C6 amended at the concrete in-range environments. -/
theorem metrics_bounds_amended_witness :
    (0 ≤ (collect envBounds).memory_percent ∧
      (collect envBounds).memory_percent ≤ 100) ∧
    (0 ≤ (collect envBounds).uptime_sec) ∧
    ((0 : ℚ) ≤ 50 ∧ (50 : ℚ) ≤ 100) := by
  have W := metrics_bounds_amended envBounds penvBounds 20 true rfl rfl
    (by norm_num [envBounds]) (by norm_num [envBounds])
    (by norm_num [envBounds]) (by norm_num [envBounds])
    (by intro p plugged h; exact Option.noConfusion h)
    (by intro r w h; exact Option.noConfusion h)
    (by norm_num [envBounds])
    (by
      intro mnt hm
      simp [penvBounds] at hm
      subst hm
      norm_num [mnt0])
  exact ⟨W.1.2.1, W.1.2.2.2.2.2.2.1,
    W.2 (mountDicts penvBounds.partitions 20) rfl (diskMountDict mnt0)
      (List.mem_singleton_self _) _ 50 rfl rfl⟩

end MacMon
